import Mathlib

/-!
Verification of the period-aggregation and reconciliation engine of the
Tribeca AOP dashboard (`src/components/exp_dashboard.py`).  The Python code
is shallowly embedded: pandas tables become lists of records, numeric cells
become rationals, dates become a year/month/day structure, and the string
operations used on column names and month names are reimplemented faithfully
(strip, lower, title, the substring operator, replace, whitespace collapse).
-/

namespace Tribeca

/-! ### String utilities mirroring the Python string operations -/

def isSpaceChar (c : Char) : Bool := c = ' ' || c = '\t' || c = '\n' || c = '\r'

def startsWithL : List Char → List Char → Bool
  | [], _ => true
  | _ :: _, [] => false
  | a :: as, b :: bs => a = b && startsWithL as bs

def hasSubL (pat : List Char) : List Char → Bool
  | [] => startsWithL pat []
  | c :: cs => startsWithL pat (c :: cs) || hasSubL pat cs

/-- Python's substring test `pat in s`. -/
def pyIn (pat s : String) : Bool := hasSubL pat.toList s.toList

/-- Python's `str.strip` (drop leading and trailing whitespace). -/
def pyStrip (s : String) : String :=
  String.mk (((s.toList.dropWhile isSpaceChar).reverse.dropWhile isSpaceChar).reverse)

/-- Python's `str.lower` for ASCII text. -/
def pyLower (s : String) : String := String.mk (s.toList.map Char.toLower)

def titleL : Bool → List Char → List Char
  | _, [] => []
  | prevAlpha, c :: cs =>
    if c.isAlpha then
      (if prevAlpha then c.toLower else c.toUpper) :: titleL true cs
    else
      c :: titleL false cs

/-- Python's `str.title` for ASCII text: an alphabetic character is upper-cased
after a non-alphabetic character and lower-cased after an alphabetic one. -/
def pyTitle (s : String) : String := String.mk (titleL false s.toList)

def collapseL : Bool → List Char → List Char
  | _, [] => []
  | prevWs, c :: cs =>
    if isSpaceChar c then
      (if prevWs then [] else [' ']) ++ collapseL true cs
    else
      c :: collapseL false cs

/-- The regex replacement of every whitespace run by a single space used on
column names (lines 14-15 of `exp_dashboard.py`). -/
def collapseWs (s : String) : String := String.mk (collapseL false s.toList)

/-- Column-name normalization from lines 14-15: strip, lower, collapse whitespace. -/
def normalizeName (s : String) : String := collapseWs (pyLower (pyStrip s))

def replaceFuel (pat rep : List Char) : Nat → List Char → List Char
  | 0, l => l
  | _ + 1, [] => []
  | fuel + 1, c :: cs =>
    if !pat.isEmpty && startsWithL pat (c :: cs) then
      rep ++ replaceFuel pat rep fuel ((c :: cs).drop pat.length)
    else
      c :: replaceFuel pat rep fuel cs

/-- Python's `str.replace`: replace every non-overlapping occurrence of `pat`
by `rep`, scanning left to right. -/
def pyReplaceAll (s pat rep : String) : String :=
  String.mk (replaceFuel pat.toList rep.toList s.toList.length s.toList)

/-! ### Dates and the fiscal calendar -/

structure Date where
  year : Int
  month : Nat
  day : Nat
deriving DecidableEq

/-- Inclusive comparison of dates, lexicographic on (year, month, day). -/
def dateLe (a b : Date) : Bool :=
  a.year < b.year ||
    (a.year = b.year && (a.month < b.month || (a.month = b.month && a.day ≤ b.day)))

def isLeapYear (y : Int) : Bool := y % 4 = 0 && (y % 100 ≠ 0 || y % 400 = 0)

def daysInMonth (y : Int) (m : Nat) : Nat :=
  if m = 2 then (if isLeapYear y then 29 else 28)
  else if m = 4 || m = 6 || m = 9 || m = 11 then 30
  else 31

/-- Line 54: `today.replace(day=1) - pd.DateOffset(days=1)`, the last day of the
month preceding today's month. -/
def lastMonthDate (today : Date) : Date :=
  if today.month = 1 then ⟨today.year - 1, 12, 31⟩
  else ⟨today.year, today.month - 1, daysInMonth today.year (today.month - 1)⟩

/-- Line 55 of the first window block (overwritten at line 165 before any use). -/
def startMtdV1 (today : Date) : Date := { lastMonthDate today with day := 1 }

/-- Line 56 of the first window block (overwritten at line 166 before any use). -/
def endMtdV1 (today : Date) : Date := lastMonthDate today

/-- Lines 58-68 of the first window block (overwritten at line 169 before any use). -/
def startQtdV1 (today : Date) : Date :=
  let d := lastMonthDate today
  if d.month ≤ 3 then ⟨d.year, 1, 1⟩
  else if d.month ≤ 6 then ⟨d.year, 4, 1⟩
  else if d.month ≤ 9 then ⟨d.year, 7, 1⟩
  else ⟨d.year, 10, 1⟩

/-- Lines 71-76 of the first window block (overwritten at line 173 before any use). -/
def startYtdV1 (today : Date) : Date :=
  let d := lastMonthDate today
  if d.month ≥ 4 then ⟨d.year, 4, 1⟩ else ⟨d.year - 1, 4, 1⟩

/-- Modelled from the spec: `get_last_completed_month` is imported from
`utils.helper`, a repository module absent from the available sources; per the
spec it returns the first day of the calendar month immediately preceding
today's month, rolling the year back at January. -/
def get_last_completed_month (today : Date) : Date :=
  if today.month = 1 then ⟨today.year - 1, 12, 1⟩ else ⟨today.year, today.month - 1, 1⟩

/-- Modelled from the spec: `get_qtr_start` (imported from the absent
`utils.helper`) returns the first day of the fiscal quarter
(April / July / October / January) containing the given date. -/
def get_qtr_start (d : Date) : Date :=
  if 4 ≤ d.month ∧ d.month ≤ 6 then ⟨d.year, 4, 1⟩
  else if 7 ≤ d.month ∧ d.month ≤ 9 then ⟨d.year, 7, 1⟩
  else if 10 ≤ d.month then ⟨d.year, 10, 1⟩
  else ⟨d.year, 1, 1⟩

/-- Modelled from the spec: `get_fy_start` (imported from the absent
`utils.helper`) returns April 1 of the fiscal year containing the date, taking
the previous calendar year when the month precedes April. -/
def get_fy_start (d : Date) : Date :=
  if d.month ≥ 4 then ⟨d.year, 4, 1⟩ else ⟨d.year - 1, 4, 1⟩

/-- Line 165: the effective MTD window start. -/
def startMtd (today : Date) : Date := { get_last_completed_month today with day := 1 }

/-- Line 166: the effective MTD window end (the month marker itself). -/
def endMtd (today : Date) : Date := get_last_completed_month today

/-- Line 169: the effective QTD window start. -/
def startQtd (today : Date) : Date := get_qtr_start (get_last_completed_month today)

/-- Line 170: the effective QTD window end. -/
def endQtd (today : Date) : Date := get_last_completed_month today

/-- Line 173: the effective YTD window start. -/
def startYtd (today : Date) : Date := get_fy_start (get_last_completed_month today)

/-- Line 174: the effective YTD window end. -/
def endYtd (today : Date) : Date := get_last_completed_month today

/-- C3: for reference date 2025-07-11 the derived fiscal windows are: last
completed month 2025-06-01; MTD start and end both 2025-06-01 (the month
marker covering all of June); QTD from 2025-04-01 to 2025-06-01; YTD from
2025-04-01 to 2025-06-01; and the last completed month rolls the year back at
January (2026-01-15 gives 2025-12-01). -/
theorem fiscal_windows_2025_07_11 :
    get_last_completed_month ⟨2025, 7, 11⟩ = ⟨2025, 6, 1⟩ ∧
    startMtd ⟨2025, 7, 11⟩ = ⟨2025, 6, 1⟩ ∧
    endMtd ⟨2025, 7, 11⟩ = ⟨2025, 6, 1⟩ ∧
    startQtd ⟨2025, 7, 11⟩ = ⟨2025, 4, 1⟩ ∧
    endQtd ⟨2025, 7, 11⟩ = ⟨2025, 6, 1⟩ ∧
    startYtd ⟨2025, 7, 11⟩ = ⟨2025, 4, 1⟩ ∧
    endYtd ⟨2025, 7, 11⟩ = ⟨2025, 6, 1⟩ ∧
    get_last_completed_month ⟨2026, 1, 15⟩ = ⟨2025, 12, 1⟩ := by
  decide

/-! ### Input validation (lines 14-47 and 79-82) -/

def monthNamesFull : List String :=
  ["January", "February", "March", "April", "May", "June",
   "July", "August", "September", "October", "November", "December"]

def monthAbbr3 : List String :=
  ["Jan", "Feb", "Mar", "Apr", "May", "Jun", "Jul", "Aug", "Sep", "Oct", "Nov", "Dec"]

/-- Modelled from the spec: month-name recognition underlying
`find_invalid_months` (imported from `utils.helper`, a repository module
absent from the available sources) and the pandas month-plus-year parse.  A
title-cased value names a month when it is one of the twelve canonical full
names or their three-letter abbreviations; the spec's own invalid-month
example treats "Jan" and "Mar" as valid, so abbreviations are accepted. -/
def monthNumber (s : String) : Option Nat :=
  match monthNamesFull.findIdx? (fun n => n == s) with
  | some i => some (i + 1)
  | none =>
    match monthAbbr3.findIdx? (fun n => n == s) with
    | some i => some (i + 1)
    | none => none

/-- Modelled from the spec: `find_invalid_months` is imported from the absent
`utils.helper`; per the spec it collects every value that does not match the
canonical month-name set (all offenders, not just the first). -/
def find_invalid_months (vals : List String) : List String :=
  (vals.filter (fun v => (monthNumber v).isNone)).dedup

/-- Line 37: `pd.to_datetime(month + ' ' + year)`, with a recognized month name
giving the first day of that month and anything else coercing to NaT (none). -/
def parseMonthYear (m : String) (y : Int) : Option Date :=
  (monthNumber m).map (fun n => ⟨y, n, 1⟩)

/-- Outcome of the validation code at the head of `render_exp_dashboard`:
either the render proceeds with parsed data, or the function reports the
missing columns and returns early (lines 22-23), or it reports a message and
aborts the script run via `st.stop()` (an exception handled by the Streamlit
host; the operating-system process survives). -/
inductive ValidationOutcome (α : Type) where
  | proceed : α → ValidationOutcome α
  | errorReturn : List String → ValidationOutcome α
  | stopRun : String → ValidationOutcome α
deriving DecidableEq

/-- The validation code halts the render by itself (early return or `st.stop`)
instead of handing an error value to a caller. -/
def haltsRender {α : Type} : ValidationOutcome α → Bool
  | .proceed _ => false
  | .errorReturn _ => true
  | .stopRun _ => true

/-- Raw target-table input: raw column names plus the contents of the month and
year columns (used only when those columns are present). -/
structure RawTargetTable where
  cols : List String
  months : List String
  years : List Int
deriving DecidableEq

def normCols (t : RawTargetTable) : List String := t.cols.map normalizeName

/-- Line 17. -/
def required_cols_target_df : List String :=
  ["project", "dm inflow actual", "dm inflow target"]

/-- Line 21: the missing required target-table columns, in required order. -/
def missingTargetCols (cols : List String) : List String :=
  required_cols_target_df.filter (fun c => !(cols.contains c))

/-- Line 28: month values stripped and title-cased. -/
def titledMonths (t : RawTargetTable) : List String :=
  t.months.map (fun m => pyTitle (pyStrip m))

/-- Line 29. -/
def invalidMonthsOf (t : RawTargetTable) : List String :=
  find_invalid_months (titledMonths t)

/-- Line 37: the parsed `monthstart` column. -/
def parsedMonthstarts (t : RawTargetTable) : List (Option Date) :=
  (List.zip (titledMonths t) t.years).map (fun p => parseMonthYear p.1 p.2)

/-- Lines 14-47: column normalization, the required-column check on the target
table, month normalization and validation, and the `monthstart` parse, with
each failure path reporting and halting exactly as the code does. -/
def validateTarget (t : RawTargetTable) : ValidationOutcome (List Date) :=
  if missingTargetCols (normCols t) ≠ [] then
    .errorReturn (missingTargetCols (normCols t))
  else if "month" ∈ normCols t ∧ "year" ∈ normCols t then
    if invalidMonthsOf t ≠ [] then
      .stopRun ("The following month values are invalid: "
        ++ String.intercalate ", " (invalidMonthsOf t))
    else if (parsedMonthstarts t).any (fun o => o.isNone) then
      .stopRun "Some rows have invalid month-year combinations."
    else
      .proceed (parsedMonthstarts t).reduceOption
  else
    .stopRun "CSV must include month and year columns to compute monthstart."

/-- The disjunction of the validation failure conditions checked by
lines 14-47, stated independently of the outcome value. -/
def targetValidationFails (t : RawTargetTable) : Prop :=
  missingTargetCols (normCols t) ≠ [] ∨
  ¬ ("month" ∈ normCols t ∧ "year" ∈ normCols t) ∨
  invalidMonthsOf t ≠ [] ∨
  (parsedMonthstarts t).any (fun o => o.isNone) = true

/-- Line 79. -/
def required_cols_expense : List String :=
  ["category", "month", "year", "actual", "target"]

/-- The expense-table columns actually missing from the input. -/
def missingExpenseCols (cols : List String) : List String :=
  required_cols_expense.filter (fun c => !(cols.contains c))

/-- Outcome of the expense-table required-column check: either the render goes
on, or the message reports the given column list and the render stops. -/
inductive ColumnsCheck where
  | ok : ColumnsCheck
  | halt : List String → ColumnsCheck
deriving DecidableEq

/-- Lines 79-82: the expense-table required-column check; on failure the
message lists the whole required set (the code interpolates `required_cols`,
not the missing ones) and the render stops. -/
def expenseColumnsCheck (cols : List String) : ColumnsCheck :=
  if required_cols_expense.all (fun c => cols.contains c) then .ok
  else .halt required_cols_expense

/-- The month values after the line-28 strip-and-title normalization, as fed to
`find_invalid_months`. -/
def monthPipelineInvalid (vals : List String) : List String :=
  find_invalid_months (vals.map (fun v => pyTitle (pyStrip v)))

/-- C4 counterexample: on a target table whose month column holds "Febuary"
the validation code itself halts the render (it calls `st.stop` after the
warning), so halting is not left to any caller; this refutes the claim that
the validator only reports failures and never itself halts the run. -/
theorem validator_halts_itself_counterexample :
    haltsRender (validateTarget
      ⟨["project", "dm inflow actual", "dm inflow target", "month", "year"],
        ["Febuary"], [2025]⟩) = true := by
  decide

/-- C4 (amended): the validation code halts the render by itself exactly when
one of its failure conditions holds (missing target columns, absent month or
year column, invalid month values, or an unparseable month-year combination);
the halt is an early return or an `st.stop` exception handled by the Streamlit
host, not an operating-system process exit. -/
theorem validation_failure_halts (t : RawTargetTable) :
    haltsRender (validateTarget t) = true ↔ targetValidationFails t := by
  unfold validateTarget targetValidationFails
  by_cases h1 : missingTargetCols (normCols t) = []
  · by_cases h2 : "month" ∈ normCols t ∧ "year" ∈ normCols t
    · by_cases h3 : invalidMonthsOf t = []
      · by_cases h4 : (parsedMonthstarts t).any (fun o => o.isNone) = true
        · simp [h1, h2, h3, h4, haltsRender]
        · simp [h1, h2, h3, h4, haltsRender]
      · simp [h1, h2, h3, haltsRender]
    · simp [h1, h2, haltsRender]
  · simp [h1, haltsRender]

/-- C5 counterexample: an expense table missing exactly the column "category"
is rejected with a message listing the whole required set, not the list of
missing columns; this refutes the claim that every required-column failure
lists exactly the missing names. -/
theorem expense_columns_report_counterexample :
    expenseColumnsCheck ["month", "year", "actual", "target"]
        = ColumnsCheck.halt required_cols_expense ∧
    missingExpenseCols ["month", "year", "actual", "target"] = ["category"] ∧
    required_cols_expense ≠ ["category"] := by
  decide

/-- C5 (amended): the target-table required-column check fails listing exactly
the missing column names (all of them, not just the first), while the
expense-table check reports the entire required set rather than the missing
names. -/
theorem required_columns_reporting (t : RawTargetTable) (cols : List String)
    (ht : missingTargetCols (normCols t) ≠ [])
    (he : missingExpenseCols cols ≠ []) :
    validateTarget t = ValidationOutcome.errorReturn (missingTargetCols (normCols t)) ∧
    expenseColumnsCheck cols = ColumnsCheck.halt required_cols_expense := by
  constructor
  · unfold validateTarget
    simp [ht]
  · unfold expenseColumnsCheck
    have hx : ∃ x ∈ required_cols_expense, x ∉ cols := by
      rcases List.exists_mem_of_ne_nil _ he with ⟨c, hc⟩
      rw [missingExpenseCols, List.mem_filter] at hc
      exact ⟨c, hc.1, by simpa using hc.2⟩
    have hcond : ¬ (required_cols_expense.all fun c => cols.contains c) = true := by
      rcases hx with ⟨c, hc, hnc⟩
      intro hall
      exact hnc (by simpa using List.all_eq_true.mp hall c hc)
    simp [hcond, hx]

/-- C5 witness: both reporting behaviours at concrete inputs. -/
theorem required_columns_reporting_witness :
    validateTarget ⟨["month", "year"], [], []⟩
        = ValidationOutcome.errorReturn
            (missingTargetCols (normCols ⟨["month", "year"], [], []⟩)) ∧
    expenseColumnsCheck ["month", "year", "actual", "target"]
        = ColumnsCheck.halt required_cols_expense :=
  required_columns_reporting ⟨["month", "year"], [], []⟩
    ["month", "year", "actual", "target"] (by decide) (by decide)

/-- C6: month validation strips and title-cases each value and collects every
value whose title-cased form fails to match the canonical month names (so all
offenders are reported, not just the first), and on the input
["Jan", "Febuary", "Mar"] the reported invalid values are exactly
["Febuary"]. -/
theorem invalid_month_detection :
    (∀ vals : List String, ∀ v ∈ vals,
        (monthNumber (pyTitle (pyStrip v))).isNone = true →
        pyTitle (pyStrip v) ∈ monthPipelineInvalid vals) ∧
    monthPipelineInvalid ["Jan", "Febuary", "Mar"] = ["Febuary"] := by
  constructor
  · intro vals v hv hbad
    unfold monthPipelineInvalid find_invalid_months
    rw [List.mem_dedup]
    exact List.mem_filter.mpr ⟨List.mem_map_of_mem _ hv, hbad⟩
  · decide

/-- C6 witness: the misspelled value "Febuary" is reported on the example
input. -/
theorem invalid_month_detection_witness :
    pyTitle (pyStrip "Febuary") ∈ monthPipelineInvalid ["Jan", "Febuary", "Mar"] :=
  invalid_month_detection.1 ["Jan", "Febuary", "Mar"] "Febuary" (by decide) (by decide)

/-! ### Reshaper: melt and pivot of the expense table (lines 85-97) -/

inductive VKind where
  | actual : VKind
  | target : VKind
deriving DecidableEq, BEq

/-- A long-format expense record after the month and year keys are fixed; the
pivot treats month and year as opaque group keys. -/
structure ExpenseRec where
  month : Nat
  year : Int
  category : String
  actual : ℚ
  target : ℚ
deriving DecidableEq

structure MeltRow where
  month : Nat
  year : Int
  category : String
  kind : VKind
  value : ℚ
deriving DecidableEq

/-- Lines 85-90: melt to long form; each record contributes an actual row and a
target row (pandas emits all actual rows before all target rows, but the pivot
aggregation is order-insensitive, so the rows are interleaved here). -/
def meltRows (rs : List ExpenseRec) : List MeltRow :=
  rs.flatMap (fun r =>
    [⟨r.month, r.year, r.category, VKind.actual, r.actual⟩,
     ⟨r.month, r.year, r.category, VKind.target, r.target⟩])

def keyMatch (m : Nat) (y : Int) (cat : String) (r : ExpenseRec) : Bool :=
  r.month == m && r.year == y && r.category == cat

def rowKeyMatch (m : Nat) (y : Int) (cat : String) (row : MeltRow) : Bool :=
  row.month == m && row.year == y && row.category == cat

/-- The melted values landing in the pivot cell (month, year, category, kind). -/
def pivotMatches (rs : List ExpenseRec) (m : Nat) (y : Int) (cat : String)
    (k : VKind) : List ℚ :=
  (meltRows rs).filterMap (fun row =>
    if rowKeyMatch m y cat row && row.kind == k then some row.value else none)

/-- Lines 93-97: `pivot_table` with its default aggregation, which averages the
values of duplicate (month, year, category, type) combinations; a combination
absent from the data yields no cell (modelled as none). -/
def pivotValue (rs : List ExpenseRec) (m : Nat) (y : Int) (cat : String)
    (k : VKind) : Option ℚ :=
  let vs := pivotMatches rs m y cat k
  if vs.length = 0 then none else some (vs.sum / (vs.length : ℚ))

theorem pivotMatches_actual (rs : List ExpenseRec) (m : Nat) (y : Int) (cat : String) :
    pivotMatches rs m y cat VKind.actual
      = ((rs.filter (keyMatch m y cat)).map (fun r => r.actual)) := by
  induction rs with
  | nil => rfl
  | cons r rs ih =>
    have e1 : rowKeyMatch m y cat ⟨r.month, r.year, r.category, VKind.actual, r.actual⟩
        = keyMatch m y cat r := rfl
    have e2 : rowKeyMatch m y cat ⟨r.month, r.year, r.category, VKind.target, r.target⟩
        = keyMatch m y cat r := rfl
    have hkaa : (VKind.actual == VKind.actual) = true := rfl
    have hkta : (VKind.target == VKind.actual) = false := rfl
    have hcons : pivotMatches (r :: rs) m y cat VKind.actual
        = (if keyMatch m y cat r = true then [r.actual] else [])
            ++ pivotMatches rs m y cat VKind.actual := by
      simp only [pivotMatches, meltRows, List.flatMap_cons, List.filterMap_append,
        List.filterMap_cons, List.filterMap_nil, e1, e2, hkaa, hkta]
      cases h : keyMatch m y cat r <;> simp [h]
    rw [hcons, ih, List.filter_cons]
    cases h : keyMatch m y cat r <;> simp [h]

theorem pivotMatches_target (rs : List ExpenseRec) (m : Nat) (y : Int) (cat : String) :
    pivotMatches rs m y cat VKind.target
      = ((rs.filter (keyMatch m y cat)).map (fun r => r.target)) := by
  induction rs with
  | nil => rfl
  | cons r rs ih =>
    have e1 : rowKeyMatch m y cat ⟨r.month, r.year, r.category, VKind.actual, r.actual⟩
        = keyMatch m y cat r := rfl
    have e2 : rowKeyMatch m y cat ⟨r.month, r.year, r.category, VKind.target, r.target⟩
        = keyMatch m y cat r := rfl
    have hkat : (VKind.actual == VKind.target) = false := rfl
    have hktt : (VKind.target == VKind.target) = true := rfl
    have hcons : pivotMatches (r :: rs) m y cat VKind.target
        = (if keyMatch m y cat r = true then [r.target] else [])
            ++ pivotMatches rs m y cat VKind.target := by
      simp only [pivotMatches, meltRows, List.flatMap_cons, List.filterMap_append,
        List.filterMap_cons, List.filterMap_nil, e1, e2, hkat, hktt]
      cases h : keyMatch m y cat r <;> simp [h]
    rw [hcons, ih, List.filter_cons]
    cases h : keyMatch m y cat r <;> simp [h]

/-- C10: when records share the same (month, year, category), the pivoted wide
value for that cell is the arithmetic mean of the duplicates' values, for the
actual and the target column alike (the default pivot aggregation averages;
it does not sum). -/
theorem pivot_duplicates_mean (rs : List ExpenseRec) (m : Nat) (y : Int)
    (cat : String) (h : rs.filter (keyMatch m y cat) ≠ []) :
    pivotValue rs m y cat VKind.actual
      = some (((rs.filter (keyMatch m y cat)).map (fun r => r.actual)).sum
          / ((rs.filter (keyMatch m y cat)).length : ℚ)) ∧
    pivotValue rs m y cat VKind.target
      = some (((rs.filter (keyMatch m y cat)).map (fun r => r.target)).sum
          / ((rs.filter (keyMatch m y cat)).length : ℚ)) := by
  have hlen : (rs.filter (keyMatch m y cat)).length ≠ 0 := by
    simpa [List.length_eq_zero] using h
  constructor
  · unfold pivotValue
    rw [pivotMatches_actual]
    simp [List.length_map, hlen]
  · unfold pivotValue
    rw [pivotMatches_target]
    simp [List.length_map, hlen]

def c10recs : List ExpenseRec :=
  [⟨6, 2025, "Rent", 100, 150⟩, ⟨6, 2025, "Rent", 200, 150⟩]

/-- C10 witness: two June-2025 "Rent" records with actuals 100 and 200 pivot to
150 (their mean, not their 300 sum), and targets 150 and 150 pivot to 150. -/
theorem pivot_duplicates_mean_witness :
    pivotValue c10recs 6 2025 "Rent" VKind.actual = some 150 ∧
    pivotValue c10recs 6 2025 "Rent" VKind.target = some 150 := by
  have h := pivot_duplicates_mean c10recs 6 2025 "Rent" (by decide)
  exact ⟨h.1.trans (by norm_num [c10recs, keyMatch, List.filter]),
    h.2.trans (by norm_num [c10recs, keyMatch, List.filter])⟩

/-! ### Expense columns and the total (lines 119-128) -/

/-- Line 121-124: the hard-coded category allow-list. -/
def expenseNameMatchers : List String :=
  ["salary", "legal and professional", "rent", "hotel & travel expenses",
   "marketing exp.", "misc expenses", "investments", "capex"]

/-- Lines 120-125: a column is collected as an expense column when its name
contains one of the allow-list names as a substring and contains "actual" as a
substring (Python's `x in col`). -/
def isExpenseCol (col : String) : Bool :=
  expenseNameMatchers.any (fun x => pyIn x col) && pyIn "actual" col

/-- Line 120: `expense_cols`, computed from the pivot output's column names
(before the total column itself is appended at line 128). -/
def expense_cols (cols : List String) : List String := cols.filter isExpenseCol

/-- Line 128: `total_actual_expense`, the row sum over the collected expense
columns; a wide row is a total assignment of values to column names. -/
def total_actual_expense (cols : List String) (row : String → ℚ) : ℚ :=
  ((expense_cols cols).map row).sum

/-- Reading of the spec's total for comparison: the sum of exactly the
allow-listed categories' `{category}_actual` columns present among the
columns, excluding every column of a category not on the allow-list. -/
def totalActualAllowListed (cols : List String) (row : String → ℚ) : ℚ :=
  (((expenseNameMatchers.map (fun cat => cat ++ "_actual")).filter
      (fun c => cols.contains c)).map row).sum

def c7cols : List String :=
  ["month", "rent_actual", "rent_target", "current assets_actual",
   "current assets_target"]

def c7row : String → ℚ := fun c =>
  if c = "rent_actual" then 10 else if c = "current assets_actual" then 5 else 0

/-- C7 counterexample: with a column "current assets_actual" present, whose
category is not on the allow-list but whose name contains the allow-listed
name "rent" as a substring, the code's total is 15 while the sum over exactly
the allow-listed category actual columns is 10; the claim that non-allow-listed
categories are excluded from the total fails. -/
theorem total_allowlist_counterexample :
    total_actual_expense c7cols c7row = 15 ∧
    totalActualAllowListed c7cols c7row = 10 ∧
    total_actual_expense c7cols c7row ≠ totalActualAllowListed c7cols c7row := by
  have h1 : expense_cols c7cols = ["rent_actual", "current assets_actual"] := by decide
  have h2 : (expenseNameMatchers.map (fun cat => cat ++ "_actual")).filter
      (fun c => c7cols.contains c) = ["rent_actual"] := by decide
  have hne : ("current assets_actual" : String) ≠ "rent_actual" := by decide
  have e1 : total_actual_expense c7cols c7row = 15 := by
    rw [total_actual_expense, h1]
    simp only [c7row, List.map_cons, List.map_nil, List.sum_cons, List.sum_nil]
    rw [if_neg hne]
    norm_num
  have e2 : totalActualAllowListed c7cols c7row = 10 := by
    rw [totalActualAllowListed, h2]
    simp only [c7row, List.map_cons, List.map_nil, List.sum_cons, List.sum_nil]
    norm_num
  refine ⟨e1, e2, by rw [e1, e2]; norm_num⟩

theorem isExpenseCol_of_allowListed :
    ∀ cat ∈ expenseNameMatchers, isExpenseCol (cat ++ "_actual") = true := by
  decide

/-- C7 (amended): the total sums the columns selected by the substring rule;
on any duplicate-free column set in which every substring-selected column is
literally an allow-listed category's `{category}_actual` column, the total
equals the sum over exactly the allow-listed category actual columns present.
In general a column of a category not on the allow-list is still included
whenever its name contains an allow-listed name as a substring together with
"actual". -/
theorem total_actual_allowlisted_of_exact
    (cols : List String) (row : String → ℚ) (hnd : cols.Nodup)
    (H : ∀ col ∈ cols, isExpenseCol col = true →
        ∃ cat ∈ expenseNameMatchers, col = cat ++ "_actual") :
    total_actual_expense cols row = totalActualAllowListed cols row := by
  have hndA : (expense_cols cols).Nodup := hnd.filter _
  have hndMap : ((expenseNameMatchers.map (fun cat => cat ++ "_actual"))).Nodup := by
    decide
  have hndB : ((expenseNameMatchers.map (fun cat => cat ++ "_actual")).filter
      (fun c => cols.contains c)).Nodup := hndMap.filter _
  have hmem : ∀ c, c ∈ expense_cols cols ↔
      c ∈ (expenseNameMatchers.map (fun cat => cat ++ "_actual")).filter
        (fun c => cols.contains c) := by
    intro c
    constructor
    · intro hc
      have hcc := List.mem_filter.mp hc
      obtain ⟨cat, hcat, rfl⟩ := H c hcc.1 hcc.2
      exact List.mem_filter.mpr ⟨List.mem_map_of_mem _ hcat, by simpa using hcc.1⟩
    · intro hc
      have hcc := List.mem_filter.mp hc
      obtain ⟨cat, hcat, rfl⟩ := List.mem_map.mp hcc.1
      have hcol : cat ++ "_actual" ∈ cols := by simpa using hcc.2
      exact List.mem_filter.mpr ⟨hcol, isExpenseCol_of_allowListed cat hcat⟩
  have hperm : (expense_cols cols).Perm
      ((expenseNameMatchers.map (fun cat => cat ++ "_actual")).filter
        (fun c => cols.contains c)) :=
    (List.perm_ext_iff_of_nodup hndA hndB).mpr hmem
  exact (hperm.map row).sum_eq

def c7schema : List String :=
  ["month", "salary_actual", "salary_target",
   "legal and professional_actual", "legal and professional_target",
   "rent_actual", "rent_target",
   "hotel & travel expenses_actual", "hotel & travel expenses_target",
   "marketing exp._actual", "marketing exp._target",
   "misc expenses_actual", "misc expenses_target",
   "investments_actual", "investments_target",
   "capex_actual", "capex_target"]

def c7rowW : String → ℚ := fun c =>
  if c = "rent_actual" then 3 else if c = "salary_actual" then 4 else 1

/-- C7 witness: on the standard wide schema, whose columns are exactly the
allow-listed categories' actual and target columns plus the month key, the
code total coincides with the allow-listed sum. -/
theorem total_actual_allowlisted_witness :
    total_actual_expense c7schema c7rowW = totalActualAllowListed c7schema c7rowW :=
  total_actual_allowlisted_of_exact c7schema c7rowW (by decide) (by decide)

/-! ### Reconciliation engine (lines 283-381) -/

/-- A target/achieved/delta triple for one category or aggregate and window. -/
structure Figure where
  target : ℚ
  achieved : ℚ
  delta : ℚ
deriving DecidableEq

def zeroFig : Figure := ⟨0, 0, 0⟩

/-- A row of the normalized target table after `monthstart` is built. -/
structure TRow where
  project : String
  monthstart : Date
  dmActual : ℚ
  dmTarget : ℚ

/-- A row of the wide expense table: the month key plus a total assignment of
values to its column names. -/
structure WideRow where
  month : Date
  vals : String → ℚ

def inWindowT (s e : Date) (r : TRow) : Bool :=
  dateLe s r.monthstart && dateLe r.monthstart e

def inWindowW (s e : Date) (w : WideRow) : Bool :=
  dateLe s w.month && dateLe w.month e

/-- Lines 283-288: the inflow figure over a window, summed from the target
table (not from the project-filtered grouped frame). -/
def compute_dm_inflows (trows : List TRow) (s e : Date) : Figure :=
  let d := trows.filter (inWindowT s e)
  let tgt := (d.map (fun r => r.dmTarget)).sum
  let act := (d.map (fun r => r.dmActual)).sum
  ⟨tgt, act, act - tgt⟩

/-- Line 303: the matching target column name for an actual column. -/
def targetColOf (col : String) : String := pyReplaceAll col "_actual" "" ++ "_target"

/-- Lines 300-304: the dictionary key produced for an expense column, when the
column contains "actual" and its target counterpart exists; the key is the
title-cased category name. -/
def expenseKeyOf (cols : List String) (col : String) : Option String :=
  if pyIn "actual" col then
    if cols.contains (targetColOf col) then
      some (pyTitle (pyReplaceAll col "_actual" ""))
    else none
  else none

/-- Lines 305-312: the per-category figure over a window. -/
def expenseFigureOf (rows : List WideRow) (s e : Date) (col : String) : Figure :=
  let filtered := rows.filter (inWindowW s e)
  let act := (filtered.map (fun w => w.vals col)).sum
  let tgt := (filtered.map (fun w => w.vals (targetColOf col))).sum
  ⟨tgt, act, act - tgt⟩

/-- Lines 296-313: `get_expense_dict`, one keyed figure per expense column with
a matching target column (the column filtering does not depend on the window,
so every window produces the same key set). -/
def get_expense_dict (cols : List String) (rows : List WideRow) (s e : Date) :
    List (String × Figure) :=
  (expense_cols cols).filterMap (fun col =>
    (expenseKeyOf cols col).map (fun k => (k, expenseFigureOf rows s e col)))

/-- The category keys determined by the column names alone. -/
def expenseKeys (cols : List String) : List String :=
  (expense_cols cols).filterMap (expenseKeyOf cols)

def charListLe : List Char → List Char → Bool
  | [], _ => true
  | _ :: _, [] => false
  | a :: as, b :: bs => if a = b then charListLe as bs else decide (a < b)

def strLeB (a b : String) : Bool := charListLe a.toList b.toList

def insertSorted (a : String) : List String → List String
  | [] => [a]
  | b :: bs => if strLeB a b then a :: b :: bs else b :: insertSorted a bs

/-- Python's `sorted` on strings (insertion sort; only the permutation property
matters for the totals). -/
def sortStr : List String → List String
  | [] => []
  | a :: as => insertSorted a (sortStr as)

theorem insertSorted_perm (a : String) (l : List String) :
    (insertSorted a l).Perm (a :: l) := by
  induction l with
  | nil => exact List.Perm.refl _
  | cons b bs ih =>
    unfold insertSorted
    by_cases h : strLeB a b = true
    · simp [h]
    · rw [if_neg h]
      exact (ih.cons b).trans (List.Perm.swap a b bs)

theorem sortStr_perm (l : List String) : (sortStr l).Perm l := by
  induction l with
  | nil => exact List.Perm.refl _
  | cons a as ih => exact (insertSorted_perm a (sortStr as)).trans (ih.cons a)

/-- Line 329: `expense_heads = sorted(mtd_exp.keys())`. -/
def expense_heads (cols : List String) (rows : List WideRow) (sM eM : Date) :
    List String :=
  sortStr ((get_expense_dict cols rows sM eM).map Prod.fst)

/-- Dictionary lookup; the figure paired with a key (the code's
`mtd_exp[head]`, whose keys always contain the heads). -/
def dictLookup (d : List (String × Figure)) (k : String) : Figure :=
  match d.find? (fun p => p.1 == k) with
  | some p => p.2
  | none => zeroFig

def addFig (a b : Figure) : Figure :=
  ⟨a.target + b.target, a.achieved + b.achieved, a.delta + b.delta⟩

/-- Lines 331-347: the Total Outflow figure, accumulated by adding each sorted
expense head's figure field by field. -/
def outflowTotals (heads : List String) (d : List (String × Figure)) : Figure :=
  heads.foldl (fun acc h => addFig acc (dictLookup d h)) zeroFig

/-- Lines 357-374: the Net Cash Flow figure: target and achieved are inflow
minus total outflow, and delta is achieved minus target. -/
def net_cash (inflow tot : Figure) : Figure :=
  ⟨inflow.target - tot.target, inflow.achieved - tot.achieved,
   (inflow.achieved - tot.achieved) - (inflow.target - tot.target)⟩

theorem foldl_addFig (d : List (String × Figure)) (heads : List String) (init : Figure) :
    heads.foldl (fun acc h => addFig acc (dictLookup d h)) init =
      ⟨init.target + (heads.map (fun h => (dictLookup d h).target)).sum,
       init.achieved + (heads.map (fun h => (dictLookup d h).achieved)).sum,
       init.delta + (heads.map (fun h => (dictLookup d h).delta)).sum⟩ := by
  induction heads generalizing init with
  | nil => simp
  | cons h hs ih =>
    rw [List.foldl_cons, ih]
    simp only [addFig, List.map_cons, List.sum_cons, Figure.mk.injEq]
    refine ⟨by ring, by ring, by ring⟩

theorem get_expense_dict_keys (cols : List String) (rows : List WideRow) (s e : Date) :
    (get_expense_dict cols rows s e).map Prod.fst = expenseKeys cols := by
  unfold get_expense_dict expenseKeys
  rw [List.map_filterMap]
  exact List.filterMap_congr (fun col _ => by cases expenseKeyOf cols col <;> simp)

theorem dictLookup_cons_self (p : String × Figure) (d : List (String × Figure)) :
    dictLookup (p :: d) p.1 = p.2 := by
  unfold dictLookup
  rw [List.find?_cons]
  simp

theorem dictLookup_cons_ne (p : String × Figure) (d : List (String × Figure))
    (k : String) (h : k ≠ p.1) :
    dictLookup (p :: d) k = dictLookup d k := by
  unfold dictLookup
  rw [List.find?_cons]
  have hb : (p.1 == k) = false := by
    simp only [beq_eq_false_iff_ne]
    exact fun hh => h hh.symm
  simp [hb]

theorem sum_lookup_over_keys (f : Figure → ℚ) (d : List (String × Figure))
    (hnd : (d.map Prod.fst).Nodup) :
    ((d.map Prod.fst).map (fun k => f (dictLookup d k))).sum
      = (d.map (fun p => f p.2)).sum := by
  induction d with
  | nil => simp
  | cons p d ih =>
    rw [List.map_cons, List.nodup_cons] at hnd
    simp only [List.map_cons, List.sum_cons]
    have h1 : dictLookup (p :: d) p.1 = p.2 := dictLookup_cons_self p d
    have h2 : (d.map Prod.fst).map (fun k => f (dictLookup (p :: d) k))
        = (d.map Prod.fst).map (fun k => f (dictLookup d k)) := by
      apply List.map_congr_left
      intro k hk
      rw [dictLookup_cons_ne p d k (fun hkp => hnd.1 (hkp ▸ hk))]
    rw [h1, h2, ih hnd.2]

theorem outflowTotals_eq_sums (heads : List String) (d : List (String × Figure))
    (hperm : heads.Perm (d.map Prod.fst)) (hnd : (d.map Prod.fst).Nodup) :
    outflowTotals heads d =
      ⟨(d.map (fun p => p.2.target)).sum,
       (d.map (fun p => p.2.achieved)).sum,
       (d.map (fun p => p.2.delta)).sum⟩ := by
  rw [outflowTotals, foldl_addFig]
  have ht := ((hperm.map (fun k => (dictLookup d k).target)).sum_eq).trans
    (sum_lookup_over_keys (fun fg => fg.target) d hnd)
  have ha := ((hperm.map (fun k => (dictLookup d k).achieved)).sum_eq).trans
    (sum_lookup_over_keys (fun fg => fg.achieved) d hnd)
  have hd := ((hperm.map (fun k => (dictLookup d k).delta)).sum_eq).trans
    (sum_lookup_over_keys (fun fg => fg.delta) d hnd)
  simp only [zeroFig, Figure.mk.injEq, zero_add]
  exact ⟨ht, ha, hd⟩

/-- C1: for every window, the Total Outflow figure's target, achieved, and
delta each equal the sum of the corresponding field over the per-category
expense figures of that window; the heads list is the sorted key set of the
MTD dictionary, which coincides with every window's key set. -/
theorem outflow_totals_are_category_sums
    (cols : List String) (rows : List WideRow) (sM eM s e : Date)
    (hnd : (expenseKeys cols).Nodup) :
    outflowTotals (expense_heads cols rows sM eM) (get_expense_dict cols rows s e) =
      ⟨((get_expense_dict cols rows s e).map (fun p => p.2.target)).sum,
       ((get_expense_dict cols rows s e).map (fun p => p.2.achieved)).sum,
       ((get_expense_dict cols rows s e).map (fun p => p.2.delta)).sum⟩ := by
  apply outflowTotals_eq_sums
  · rw [expense_heads, get_expense_dict_keys, get_expense_dict_keys]
    exact sortStr_perm _
  · rw [get_expense_dict_keys]
    exact hnd

def w1 : WideRow :=
  ⟨⟨2025, 6, 1⟩, fun c =>
    if c = "rent_actual" then 100 else if c = "rent_target" then 150 else
    if c = "salary_actual" then 50 else if c = "salary_target" then 40 else 0⟩

def c1cols : List String :=
  ["month", "rent_actual", "rent_target", "salary_actual", "salary_target"]

/-- C1 witness: one June-2025 wide row with Rent and Salary columns; the MTD
totals row equals the field-wise sums over the category figures. -/
theorem outflow_totals_witness :
    outflowTotals (expense_heads c1cols [w1] ⟨2025, 6, 1⟩ ⟨2025, 6, 1⟩)
        (get_expense_dict c1cols [w1] ⟨2025, 6, 1⟩ ⟨2025, 6, 1⟩) =
      ⟨((get_expense_dict c1cols [w1] ⟨2025, 6, 1⟩ ⟨2025, 6, 1⟩).map
          (fun p => p.2.target)).sum,
       ((get_expense_dict c1cols [w1] ⟨2025, 6, 1⟩ ⟨2025, 6, 1⟩).map
          (fun p => p.2.achieved)).sum,
       ((get_expense_dict c1cols [w1] ⟨2025, 6, 1⟩ ⟨2025, 6, 1⟩).map
          (fun p => p.2.delta)).sum⟩ :=
  outflow_totals_are_category_sums c1cols [w1] ⟨2025, 6, 1⟩ ⟨2025, 6, 1⟩
    ⟨2025, 6, 1⟩ ⟨2025, 6, 1⟩ (by decide)

theorem sum_map_sub {α : Type} (l : List α) (f g : α → ℚ) :
    (l.map (fun x => f x - g x)).sum = (l.map f).sum - (l.map g).sum := by
  induction l with
  | nil => simp
  | cons x xs ih =>
    simp only [List.map_cons, List.sum_cons, ih]
    ring

theorem get_expense_dict_delta (cols : List String) (rows : List WideRow) (s e : Date) :
    ∀ p ∈ get_expense_dict cols rows s e, p.2.delta = p.2.achieved - p.2.target := by
  intro p hp
  unfold get_expense_dict at hp
  obtain ⟨col, hcol, hmap⟩ := List.mem_filterMap.mp hp
  cases hk : expenseKeyOf cols col with
  | none => rw [hk] at hmap; simp at hmap
  | some k =>
    rw [hk] at hmap
    simp only [Option.map_some'] at hmap
    have hpe : (k, expenseFigureOf rows s e col) = p := Option.some.inj hmap
    subst hpe
    rfl

theorem dictLookup_delta (d : List (String × Figure))
    (hd : ∀ p ∈ d, p.2.delta = p.2.achieved - p.2.target) (k : String) :
    (dictLookup d k).delta = (dictLookup d k).achieved - (dictLookup d k).target := by
  unfold dictLookup
  cases hf : d.find? (fun p => p.1 == k) with
  | none => simp [zeroFig]
  | some p => exact hd p (List.mem_of_find?_eq_some hf)

theorem outflowTotals_delta (heads : List String) (d : List (String × Figure))
    (hd : ∀ p ∈ d, p.2.delta = p.2.achieved - p.2.target) :
    (outflowTotals heads d).delta
      = (outflowTotals heads d).achieved - (outflowTotals heads d).target := by
  rw [outflowTotals, foldl_addFig]
  simp only [zeroFig, zero_add]
  have hcong : heads.map (fun h => (dictLookup d h).delta)
      = heads.map (fun h => (dictLookup d h).achieved - (dictLookup d h).target) :=
    List.map_congr_left (fun h _ => dictLookup_delta d hd h)
  rw [hcong, sum_map_sub]

/-- C2: for every window, the net cash-flow figure has target equal to inflow
target minus total-outflow target, achieved equal to inflow achieved minus
total-outflow achieved, delta equal to achieved minus target, and consequently
delta equal to the inflow figure's delta minus the total-outflow delta. -/
theorem net_cash_flow_identity
    (cols : List String) (rows : List WideRow) (trows : List TRow) (sM eM s e : Date) :
    (net_cash (compute_dm_inflows trows s e)
        (outflowTotals (expense_heads cols rows sM eM)
          (get_expense_dict cols rows s e))).target
      = (compute_dm_inflows trows s e).target
        - (outflowTotals (expense_heads cols rows sM eM)
            (get_expense_dict cols rows s e)).target ∧
    (net_cash (compute_dm_inflows trows s e)
        (outflowTotals (expense_heads cols rows sM eM)
          (get_expense_dict cols rows s e))).achieved
      = (compute_dm_inflows trows s e).achieved
        - (outflowTotals (expense_heads cols rows sM eM)
            (get_expense_dict cols rows s e)).achieved ∧
    (net_cash (compute_dm_inflows trows s e)
        (outflowTotals (expense_heads cols rows sM eM)
          (get_expense_dict cols rows s e))).delta
      = (net_cash (compute_dm_inflows trows s e)
          (outflowTotals (expense_heads cols rows sM eM)
            (get_expense_dict cols rows s e))).achieved
        - (net_cash (compute_dm_inflows trows s e)
            (outflowTotals (expense_heads cols rows sM eM)
              (get_expense_dict cols rows s e))).target ∧
    (net_cash (compute_dm_inflows trows s e)
        (outflowTotals (expense_heads cols rows sM eM)
          (get_expense_dict cols rows s e))).delta
      = (compute_dm_inflows trows s e).delta
        - (outflowTotals (expense_heads cols rows sM eM)
            (get_expense_dict cols rows s e)).delta := by
  refine ⟨rfl, rfl, rfl, ?_⟩
  have hI : (compute_dm_inflows trows s e).delta
      = (compute_dm_inflows trows s e).achieved
        - (compute_dm_inflows trows s e).target := rfl
  have hT := outflowTotals_delta (expense_heads cols rows sM eM)
    (get_expense_dict cols rows s e) (get_expense_dict_delta cols rows s e)
  rw [net_cash, hI, hT]
  ring

/-- C8: over a window matching no rows, the inflow figure is the zero triple
and the expense dictionary holds every category key with the zero triple:
aggregation over an empty window yields 0, never an error or a missing key. -/
theorem empty_window_zero
    (cols : List String) (rows : List WideRow) (trows : List TRow) (s e : Date)
    (h1 : ∀ r ∈ trows, inWindowT s e r = false)
    (h2 : ∀ w ∈ rows, inWindowW s e w = false) :
    compute_dm_inflows trows s e = zeroFig ∧
    get_expense_dict cols rows s e
      = (expenseKeys cols).map (fun k => (k, zeroFig)) := by
  have hf1 : trows.filter (inWindowT s e) = [] := by
    rw [List.filter_eq_nil_iff]
    intro r hr
    simp [h1 r hr]
  have hf2 : rows.filter (inWindowW s e) = [] := by
    rw [List.filter_eq_nil_iff]
    intro w hw
    simp [h2 w hw]
  have hfig : ∀ col, expenseFigureOf rows s e col = zeroFig := by
    intro col
    unfold expenseFigureOf
    rw [hf2]
    simp [zeroFig]
  constructor
  · unfold compute_dm_inflows
    rw [hf1]
    simp [zeroFig]
  · unfold get_expense_dict expenseKeys
    rw [List.map_filterMap]
    exact List.filterMap_congr (fun col _ => by
      cases expenseKeyOf cols col <;> simp [hfig])

/-- C8 witness: a target row and a wide row dated June 2025 against the
degenerate July 2025 window. -/
theorem empty_window_zero_witness :
    compute_dm_inflows [⟨"P1", ⟨2025, 6, 1⟩, 5, 7⟩] ⟨2025, 7, 1⟩ ⟨2025, 7, 1⟩ = zeroFig ∧
    get_expense_dict c1cols [w1] ⟨2025, 7, 1⟩ ⟨2025, 7, 1⟩
      = (expenseKeys c1cols).map (fun k => (k, zeroFig)) :=
  empty_window_zero c1cols [w1] [⟨"P1", ⟨2025, 6, 1⟩, 5, 7⟩]
    ⟨2025, 7, 1⟩ ⟨2025, 7, 1⟩ (by decide) (by decide)

/-! ### Render pass and project filter (lines 137-193 and 283-381) -/

/-- A row of the grouped inflow frame (lines 137-150). -/
structure GRow where
  project : String
  monthD : Date
  inflow : ℚ

/-- Lines 137-150: group the target table by (project, monthstart) and sum the
actual-inflow column (pandas sorts the group keys; the key order is not
modelled since no claim depends on it). -/
def groupedInflow (trows : List TRow) : List GRow :=
  ((trows.map (fun r => (r.project, r.monthstart))).dedup).map (fun k =>
    ⟨k.1, k.2,
      ((trows.filter (fun r => r.project == k.1 && decide (r.monthstart = k.2))).map
        (fun r => r.dmActual)).sum⟩)

/-- Lines 154-159: the sidebar project filter, applied to the grouped frame
only; "All Projects" applies no filter. -/
def projectFilter (sel : String) (g : List GRow) : List GRow :=
  if sel = "All Projects" then g else g.filter (fun r => r.project == sel)

/-- Lines 181-183: a project's inflow summed over a window. -/
def inflowByProject (g : List GRow) (s e : Date) (p : String) : ℚ :=
  ((g.filter (fun r => r.project == p && dateLe s r.monthD && dateLe r.monthD e)).map
    (fun r => r.inflow)).sum

/-- Lines 186-193: the Inflow Distribution summary, one row per project with
MTD, QTD and YTD sums (absent combinations fill with 0 as empty sums). -/
def inflowSummary (g : List GRow) (today : Date) : List (String × ℚ × ℚ × ℚ) :=
  ((g.map (fun r => r.project)).dedup).map (fun p =>
    (p, inflowByProject g (startMtd today) (endMtd today) p,
        inflowByProject g (startQtd today) (endQtd today) p,
        inflowByProject g (startYtd today) (endYtd today) p))

/-- The Cash Flow Summary reconciliation figures of lines 283-381: inflow,
per-category expenses, total outflow and net cash flow for each window. -/
structure ReconData where
  inflowM : Figure
  inflowQ : Figure
  inflowY : Figure
  expM : List (String × Figure)
  expQ : List (String × Figure)
  expY : List (String × Figure)
  outM : Figure
  outQ : Figure
  outY : Figure
  netM : Figure
  netQ : Figure
  netY : Figure

/-- Lines 283-381: the reconciliation, computed from the unfiltered target
table and the wide expense table. -/
def reconData (cols : List String) (rows : List WideRow) (trows : List TRow)
    (today : Date) : ReconData :=
  let iM := compute_dm_inflows trows (startMtd today) (endMtd today)
  let iQ := compute_dm_inflows trows (startQtd today) (endQtd today)
  let iY := compute_dm_inflows trows (startYtd today) (endYtd today)
  let dM := get_expense_dict cols rows (startMtd today) (endMtd today)
  let dQ := get_expense_dict cols rows (startQtd today) (endQtd today)
  let dY := get_expense_dict cols rows (startYtd today) (endYtd today)
  let heads := sortStr (dM.map Prod.fst)
  let tM := outflowTotals heads dM
  let tQ := outflowTotals heads dQ
  let tY := outflowTotals heads dY
  ⟨iM, iQ, iY, dM, dQ, dY, tM, tQ, tY,
   net_cash iM tM, net_cash iQ tQ, net_cash iY tY⟩

/-- The data produced by one render pass under a project selection. -/
structure RenderResult where
  summary : List (String × ℚ × ℚ × ℚ)
  recon : ReconData

/-- Lines 137-381: the render pass; the project selection filters the grouped
inflow frame feeding the Inflow Distribution section, while the reconciliation
is computed from the target table and the wide table directly. -/
def renderModel (cols : List String) (rows : List WideRow) (trows : List TRow)
    (today : Date) (sel : String) : RenderResult :=
  let g := projectFilter sel (groupedInflow trows)
  ⟨inflowSummary g today, reconData cols rows trows today⟩

/-- C9: for every project selection, the Cash Flow Summary reconciliation
figures equal those produced under "All Projects": the filter only affects the
grouped frame of the Inflow Distribution section, never the reconciliation
inflow computation (which reads the unfiltered target table) or the expense
figures. -/
theorem recon_independent_of_project_filter
    (cols : List String) (rows : List WideRow) (trows : List TRow)
    (today : Date) (sel : String) :
    (renderModel cols rows trows today sel).recon
      = (renderModel cols rows trows today "All Projects").recon := rfl

end Tribeca
